import Mathlib

/-!
# Verification of the disaster-dashboard data pipeline

Shallow embedding of the pipeline in `src/app.py`: dataset
normalization, filter-and-aggregation, the ranked bar-race builder, the
pictogram unit conversion, the session color assignment, and the
script-level control flow around empty filter selections.

Conventions of the embedding:
* pandas numeric cells are rationals (`ℚ`); a missing (NaN) cell is
  `Option.none`;
* `pandas.sort_values` (numpy quicksort, whose order on ties is
  unspecified) is modelled by the deterministic stable
  `List.insertionSort`;
* `groupby` with the default `sort=True` produces one entry per key, in
  ascending key order;
* Streamlit's `st.stop()` terminates the script run, so the rendered
  output of a run is the list of views emitted before the first stop.
-/

/-! ## Pictogram unit conversion (app.py lines 1579-1581)

`UNIT_PER_ICON = 1; active_icons = math.ceil(death_count / UNIT_PER_ICON)`.
The divisor is kept as a parameter, as the spec describes it as a
caller-supplied constant. -/

/-- The constant used by the current source text. -/
def UNIT_PER_ICON : ℕ := 1

/-- Computes `math.ceil(death_count / UNIT_PER_ICON)` on a nonnegative count. -/
def active_icons (death_count unit_per_icon : ℕ) : ℤ :=
  ⌈(death_count : ℚ) / (unit_per_icon : ℚ)⌉

/-! ## Script-level control flow around empty selections

`app.py` renders its views top to bottom; each multi-select view guards
with `if len(selected_types) == 0: st.warning(...)/st.info(...); st.stop()`
(lines 219-221, 399-401, 576-578, 701-703).  `st.stop()` halts the whole
script run.  The skeleton below records, per run, which views get
rendered: each view either renders its chart (selection nonempty) or
renders an advisory message and stops the script. -/

/-- One rendered element of a dashboard run. -/
inductive ViewOut where
  | advisory (view : String)
  | chart (view : String)
deriving DecidableEq, Repr

/-- Control-flow skeleton of one top-to-bottom script run, with the four
type-multiselect views in source order (globe, insight-1, area,
deaths-area) followed by the story and Korea sections.  An empty
selection renders an advisory for that view and, like `st.stop()`,
terminates the run. -/
def runDashboard (globeSel ins1Sel areaSel deathsSel : List String) :
    List ViewOut :=
  if globeSel.isEmpty then [.advisory "globe"]
  else .chart "globe" ::
    if ins1Sel.isEmpty then [.advisory "insight1"]
    else .chart "insight1" ::
      if areaSel.isEmpty then [.advisory "area"]
      else .chart "area" ::
        if deathsSel.isEmpty then [.advisory "deaths"]
        else [.chart "deaths", .chart "story", .chart "korea"]

/-! ## Session color assignment (app.py lines 89-134) -/

/-- The curated manual override table `manual_colors`. -/
def manual_colors : List (String × String) :=
  [("Flood", "#4c78a8"),
   ("Storm", "#f58518"),
   ("Drought", "#e45756"),
   ("Wildfire", "#ffbf00"),
   ("Earthquake", "#72b7b2"),
   ("Landslide", "#54a24b"),
   ("Extreme temperature", "#b279a2"),
   ("Epidemic", "#ff9da6")]

/-- Keys of the manual override table. -/
def manualKeys : List String := manual_colors.map Prod.fst

/-- Value of the manual override table at a key (default unused). -/
def manualColor (t : String) : String :=
  ((manual_colors.lookup t).getD "#888")

/-- Values of the manual override table (`set(manual_colors.values())`,
the initial contents of `used_colors`). -/
def manualValues : List String := manual_colors.map Prod.snd

/-- Models `while palette[palette_index % len(palette)] in used_colors:
palette_index += 1`, fuelled by one full cycle through the palette: if a
whole cycle finds no free color the Python loop never terminates, which
the model reports as `none`. -/
def pickColor (palette : List String) (used : List String) :
    ℕ → ℕ → Option (String × ℕ)
  | _, 0 => none
  | idx, fuel + 1 =>
    let c := palette.getD (idx % palette.length) ""
    if c ∈ used then pickColor palette used (idx + 1) fuel
    else some (c, idx)

/-- The `for t in all_types` loop body building `cmap`: manual types take
their curated color; every other type takes the next palette color not
already used, which is then recorded in `used_colors`. -/
def assignColors (palette : List String) :
    List String → List (String × String) → List String → ℕ →
    Option (List (String × String))
  | [], cmap, _, _ => some cmap
  | t :: ts, cmap, used, idx =>
    if t ∈ manualKeys then
      assignColors palette ts (cmap ++ [(t, manualColor t)]) used idx
    else
      match pickColor palette used idx palette.length with
      | none => none
      | some (c, i) =>
        assignColors palette ts (cmap ++ [(t, c)]) (used ++ [c]) (i + 1)

/-- Builds `DISASTER_COLOR_MAP` from the sorted list of all disaster
types: `cmap = {}`, `used_colors = set(manual_colors.values())`,
`palette_index = 0`, then the assignment loop. -/
def buildColorMap (palette : List String) (all_types : List String) :
    Option (List (String × String)) :=
  assignColors palette all_types [] manualValues 0

/-- The `st.session_state` guard: the map is built only when the session
does not hold one already (`if "DISASTER_COLOR_MAP" not in
st.session_state`), otherwise the stored map is returned untouched. -/
def sessionColorMap (stored : Option (List (String × String)))
    (palette : List String) (all_types : List String) :
    Option (List (String × String)) :=
  match stored with
  | some m => some m
  | none => buildColorMap palette all_types

/-! ## Group-by machinery shared by the aggregation sites

pandas `groupby` with the default `sort=True` emits one output row per
distinct key, in ascending key order.  The grouping keys of interest are
`(Start Year, Disaster Type)` and `(Year, Disaster Type)` pairs, ordered
lexicographically. -/

/-- An aggregation key: a year together with a category label. -/
abbrev AggKey := ℤ × String

/-- Lexicographic order on aggregation keys.  The label comparison is
stated on character lists, which coincides with the `String` order
(`String.le_iff_toList_le`) while remaining kernel-computable. -/
def keyLE (a b : AggKey) : Prop :=
  a.1 < b.1 ∨ (a.1 = b.1 ∧ a.2.toList ≤ b.2.toList)

instance : DecidableRel keyLE := fun a b => by
  unfold keyLE; infer_instance

instance : IsTrans AggKey keyLE where
  trans a b c hab hbc := by
    rcases hab with h1 | ⟨h1, h1s⟩ <;> rcases hbc with h2 | ⟨h2, h2s⟩
    · exact Or.inl (h1.trans h2)
    · exact Or.inl (h2 ▸ h1)
    · exact Or.inl (h1 ▸ h2)
    · exact Or.inr ⟨h1.trans h2, h1s.trans h2s⟩

instance : IsAntisymm AggKey keyLE where
  antisymm a b hab hba := by
    rcases hab with h1 | ⟨h1, h1s⟩ <;> rcases hba with h2 | ⟨h2, h2s⟩
    · exact absurd (h1.trans h2) (lt_irrefl _)
    · exact absurd h1 (h2 ▸ lt_irrefl _)
    · exact absurd h2 (h1 ▸ lt_irrefl _)
    · refine Prod.ext h1 ?_
      have hdata : a.2.toList = b.2.toList := le_antisymm h1s h2s
      exact String.ext hdata

instance : IsTotal AggKey keyLE where
  total a b := by
    rcases lt_trichotomy a.1 b.1 with h | h | h
    · exact Or.inl (Or.inl h)
    · rcases le_total a.2.toList b.2.toList with hs | hs
      · exact Or.inl (Or.inr ⟨h, hs⟩)
      · exact Or.inr (Or.inr ⟨h.symm, hs⟩)
    · exact Or.inr (Or.inl h)

/-- The distinct keys of a key list, in ascending order (the key column
of a pandas `groupby(...)` output with `sort=True`). -/
def sortedKeys (ks : List AggKey) : List AggKey :=
  ks.dedup.insertionSort keyLE

/-- Sum of the values attached to key `k` (`0` over an empty group). -/
def sumOver (pairs : List (AggKey × ℚ)) (k : AggKey) : ℚ :=
  ((pairs.filter (fun p => p.1 = k)).map Prod.snd).sum

/-- Computes `groupby(key).sum()` over (key, value) pairs: one entry per distinct
key, in ascending key order, carrying the group's sum.  Counting rows
(`groupby(key).size()`) is the same reduction applied to value `1`. -/
def groupSum (pairs : List (AggKey × ℚ)) : List (AggKey × ℚ) :=
  (sortedKeys (pairs.map Prod.fst)).map (fun k => (k, sumOver pairs k))

/-! ## Filter & aggregation engine (app.py lines 533-606 and 647-740)

One event row of the loaded table `df_raw` (already past `load_data`, so
the year is an integer and the numeric fields are zero-filled). -/

/-- A loaded event row, with the fields the aggregation sites read. -/
structure Row where
  startYear : ℤ
  dtype : String
  region : String
  deaths : ℚ
  affected : ℚ
deriving DecidableEq, Repr

/-- The grouping key `(Start Year, Disaster Type)` of a row. -/
def rowKey (r : Row) : AggKey := (r.startYear, r.dtype)

/-- The metric chosen by the radio control. -/
inductive Metric where
  | count
  | sumDeaths
  | sumAffected
deriving DecidableEq, Repr

/-- Per-row contribution of a metric: `0.size()` counts one per row,
the sum metrics add the row's numeric field. -/
def metricValue : Metric → Row → ℚ
  | .count, _ => 1
  | .sumDeaths, r => r.deaths
  | .sumAffected, r => r.affected

/-- Region filter: `selectedRegion = none` models the "Global" choice
(no filtering), `some reg` models `df_raw[df_raw["Region"] == reg]`. -/
def regionOk (selectedRegion : Option String) (r : Row) : Bool :=
  match selectedRegion with
  | none => true
  | some reg => r.region = reg

/-- The aggregation as the script composes it (the occurrence view,
lines 533-606, and the deaths view, lines 647-740): filter by region,
filter by the selected disaster types, group by
`(Start Year, Disaster Type)` and reduce, then keep the aggregated
entries whose year lies in the inclusive slider range.  (The script's
final categorical re-sort of the aggregated table, which only fixes the
plotting order of the unchanged entries, is omitted.) -/
def codeAggregate (rows : List Row) (selectedRegion : Option String)
    (selectedTypes : List String) (lo hi : ℤ) (m : Metric) :
    List (AggKey × ℚ) :=
  let dfRegion := match selectedRegion with
    | none => rows
    | some reg => rows.filter (fun r => r.region = reg)
  let dfTyped := dfRegion.filter (fun r => decide (r.dtype ∈ selectedTypes))
  let grouped := groupSum (dfTyped.map (fun r => (rowKey r, metricValue m r)))
  grouped.filter (fun kv => decide (lo ≤ kv.1.1) && decide (kv.1.1 ≤ hi))

/-- The spec's row-retention predicate: year in the inclusive range, type
in the selected set, and (when a region filter is given) region equal to
the selected region. -/
def retain (selectedRegion : Option String) (selectedTypes : List String)
    (lo hi : ℤ) (r : Row) : Bool :=
  decide (lo ≤ r.startYear) && decide (r.startYear ≤ hi) &&
    decide (r.dtype ∈ selectedTypes) && regionOk selectedRegion r

/-- The aggregation as the spec words it: keep exactly the rows
satisfying `retain`, then group and reduce. -/
def specAggregate (rows : List Row) (selectedRegion : Option String)
    (selectedTypes : List String) (lo hi : ℤ) (m : Metric) :
    List (AggKey × ℚ) :=
  groupSum ((rows.filter (retain selectedRegion selectedTypes lo hi)).map
    (fun r => (rowKey r, metricValue m r)))

/-! ## Korea data normalization (app.py lines 1377-1420)

A raw Korea row carries the cell under its year column (canonical
`"Year"` or legacy `"Start Year"`), the cell under `"Disaster Type"`,
and the cell under its deaths column (`"Total_Deaths"` or legacy
`"Total Deaths"`).  A numeric cell is `some q`; `none` models a cell
that is missing or that `pd.to_numeric(..., errors="coerce")` turns into
NaN.  The table's column-name list drives the alias resolution; when
both aliases of a column are present the code picks the canonical one,
and the row cell is the one of the resolved column. -/

/-- One raw Korea row (cells of the resolved year/type/deaths columns). -/
structure KRow where
  year : Option ℚ
  dtype : String
  deaths : Option ℚ
deriving DecidableEq, Repr

/-- A raw Korea table: its column names and its rows. -/
structure KTable where
  cols : List String
  rows : List KRow
deriving DecidableEq, Repr

/-- Message `f"[KOREA] Year 컬럼을 찾을 수 없어요. 현재 컬럼: {list(dfk.columns)}"`
(the surrounding quotes of Python's list repr are elided). -/
def korYearErr (cols : List String) : String :=
  "[KOREA] Year 컬럼을 찾을 수 없어요. 현재 컬럼: [" ++
    String.intercalate ", " cols ++ "]"

/-- Message `f"[KOREA] Deaths 컬럼을 찾을 수 없어요. 현재 컬럼: {list(dfk.columns)}"`. -/
def korDeathsErr (cols : List String) : String :=
  "[KOREA] Deaths 컬럼을 찾을 수 없어요. 현재 컬럼: [" ++
    String.intercalate ", " cols ++ "]"

/-- Message `f"[KOREA] Disaster Type 컬럼이 없어요. 현재 컬럼: {list(dfk.columns)}"`
(apostrophes elided). -/
def korTypeErr (cols : List String) : String :=
  "[KOREA] Disaster Type 컬럼이 없어요. 현재 컬럼: [" ++
    String.intercalate ", " cols ++ "]"

/-- The `.astype("Int64")` step raises (a pandas `TypeError`) when some
year cell is numeric but not integral. -/
def korCastErr : String := "[KOREA] cannot safely cast Year to Int64"

/-- Year alias resolution succeeds: `"Year" in dfk.columns` or
`"Start Year" in dfk.columns`. -/
def hasYearCol (t : KTable) : Prop :=
  "Year" ∈ t.cols ∨ "Start Year" ∈ t.cols

/-- Deaths alias resolution succeeds: `"Total_Deaths"` or
`"Total Deaths"` present. -/
def hasDeathsCol (t : KTable) : Prop :=
  "Total_Deaths" ∈ t.cols ∨ "Total Deaths" ∈ t.cols

/-- Type column present: `"Disaster Type" in dfk.columns`. -/
def hasTypeCol (t : KTable) : Prop := "Disaster Type" ∈ t.cols

instance (t : KTable) : Decidable (hasYearCol t) := by
  unfold hasYearCol; infer_instance

instance (t : KTable) : Decidable (hasDeathsCol t) := by
  unfold hasDeathsCol; infer_instance

instance (t : KTable) : Decidable (hasTypeCol t) := by
  unfold hasTypeCol; infer_instance

/-- Model of `normalize_korea_df`: resolve the year, deaths and type columns (in
that order, failing fast with a message naming the missing field and the
columns found), rename to the canonical schema, coerce
(`to_numeric(...errors="coerce")`, `.astype("Int64")`, deaths
`.fillna(0)`, type `astype(str)`), drop rows without a year, cast the
year to `int`, and sum duplicate `(Year, Disaster Type)` groups.  The
output lists one `((Year, Disaster Type), Total_Deaths)` row per key, in
ascending key order (pandas `groupby` with `as_index=False`). -/
def normalize_korea_df (t : KTable) : Except String (List (AggKey × ℚ)) :=
  if ¬ hasYearCol t then .error (korYearErr t.cols)
  else if ¬ hasDeathsCol t then .error (korDeathsErr t.cols)
  else if ¬ hasTypeCol t then .error (korTypeErr t.cols)
  else if t.rows.any (fun r => match r.year with
      | some q => decide (q.den ≠ 1)
      | none => false) then .error korCastErr
  else
    .ok (groupSum (t.rows.filterMap (fun r =>
      r.year.map (fun q => ((⌊q⌋, r.dtype), r.deaths.getD 0)))))

/-- Re-packages a normalized output as a raw table under the canonical
column names, every cell numeric (used to state idempotence: "loading
the same table twice yields byte-identical normalized output"). -/
def normalizedAsRaw (out : List (AggKey × ℚ)) : KTable :=
  { cols := ["Year", "Disaster Type", "Total_Deaths"],
    rows := out.map (fun kv =>
      { year := some (kv.1.1 : ℚ), dtype := kv.1.2, deaths := some kv.2 }) }

deriving instance DecidableEq for Except

/-! ## Ranked bar-race builder (app.py lines 933-1154)

`make_bar_race_with_trail` receives the yearly aggregate
`df_yearly[["Start Year", "Disaster Type", y_col]]`; one of its rows is
a year, a category, and the metric cell (`none` models NaN). -/

/-- One row of the builder's input table. -/
structure YRow where
  year : ℤ
  dtype : String
  value : Option ℚ
deriving DecidableEq, Repr

/-- The metric cell with NaN filled by zero (`fillna(0)`). -/
def rawVal (r : YRow) : ℚ := r.value.getD 0

/-- pandas linear-interpolation quantile (`Series.quantile(q)` with the
default `interpolation="linear"`): at fractional position `q * (n - 1)`
of the sorted values.  The empty case (never reached under the builder's
emptiness guard) is mapped to `0`. -/
def quantileLinear (xs : List ℚ) (q : ℚ) : ℚ :=
  let s := xs.insertionSort (· ≤ ·)
  match s with
  | [] => 0
  | _ =>
    let n := s.length
    let h : ℚ := q * ((n : ℚ) - 1)
    let i : ℕ := (⌊h⌋).toNat
    let lo := s.getD i 0
    let hi := s.getD (min (i + 1) (n - 1)) 0
    lo + (h - (⌊h⌋ : ℚ)) * (hi - lo)

/-- Percentile choice `q = 0.98 if y_col == "Deaths" else 0.95`. -/
def raceQuantile (y_col : String) : ℚ :=
  if y_col = "Deaths" then 98 / 100 else 95 / 100

/-- Display cap `x_cap = float(d[y_col].quantile(q)); x_cap = max(x_cap, 1.0)`:
the display cap of the whole filtered series. -/
def race_x_cap (vals : List ℚ) (y_col : String) : ℚ :=
  max (quantileLinear vals (raceQuantile y_col)) 1

/-- Relation sorting rows by metric value descending (the order of
`sort_values(y_col, ascending=False)`). -/
def valGE (a b : YRow) : Prop := rawVal b ≤ rawVal a

instance : DecidableRel valGE := fun a b => by
  unfold valGE; infer_instance

instance : IsTrans YRow valGE where
  trans _ _ _ hab hbc := le_trans hbc hab

instance : IsTotal YRow valGE where
  total a b := (le_total (rawVal b) (rawVal a)).imp id id

/-- Model of `d[d["Start Year"] == y].sort_values(y_col,
ascending=False).head(topN)`.  The library sort's order on tied values
is unspecified (numpy quicksort); the model fixes the deterministic
stable insertion sort, which keeps tied rows in input order. -/
def top_rows (d : List YRow) (y : ℤ) (topN : ℕ) : List YRow :=
  ((d.filter (fun r => decide (r.year = y))).insertionSort valGE).take topN

/-- Model of `top_for_year(y)`: the top-N category labels, the capped plotting
values `min(v, x_cap)`, and the raw values. -/
def top_for_year (d : List YRow) (x_cap : ℚ) (y : ℤ) (topN : ℕ) :
    List String × List ℚ × List ℚ :=
  let g := top_rows d y topN
  (g.map (fun r => r.dtype),
   g.map (fun r => min (rawVal r) x_cap),
   g.map rawVal)

/-- Test `y in pivot.index`: some (positive-valued, in-range) row has year `y`. -/
def pivotHasYear (d : List YRow) (y : ℤ) : Bool :=
  d.any (fun r => r.year = y)

/-- Test `t in pivot.columns`: some row has category `t`. -/
def pivotHasType (d : List YRow) (t : String) : Bool :=
  d.any (fun r => r.dtype = t)

/-- Lookup `pivot.loc[y, t]` where
`pivot = d.pivot_table(index="Start Year", columns="Disaster Type",
values=y_col, aggfunc="sum").fillna(0)`: the summed value of the
`(year, category)` cell, with an absent combination zero-filled. -/
def pivotCell (d : List YRow) (y : ℤ) (t : String) : ℚ :=
  ((d.filter (fun r => decide (r.year = y) && decide (r.dtype = t))).map
    rawVal).sum

/-- One trail marker's x-value:
`pivot.loc[prev_y, t] if (prev_y in pivot.index and t in pivot.columns)
else None`. -/
def trailPoint (d : List YRow) (prev_y : ℤ) (t : String) : Option ℚ :=
  if pivotHasYear d prev_y && pivotHasType d t then
    some (pivotCell d prev_y t)
  else none

/-- The data of one animation frame: the year and the three
`top_for_year` lists. -/
structure RaceFrame where
  year : ℤ
  order : List String
  vals_plot : List ℚ
  vals_raw : List ℚ
deriving DecidableEq, Repr

/-- The distinct years of the filtered table, ascending
(`years = sorted(d["Start Year"].unique().tolist())`). -/
def raceYears (d : List YRow) : List ℤ :=
  (d.map (fun r => r.year)).dedup.insertionSort (· ≤ ·)

/-- The data pipeline of `make_bar_race_with_trail`: restrict to
`Start Year <= year_end`, drop rows whose zero-filled metric is not
strictly positive, return `None` when nothing is left, otherwise build
the display cap and one frame per remaining year. -/
def make_bar_race_with_trail (df_yearly : List YRow) (y_col : String)
    (year_end : ℤ) (topN : ℕ) : Option (ℚ × List RaceFrame) :=
  let d₁ := df_yearly.filter (fun r => decide (r.year ≤ year_end))
  let d := d₁.filter (fun r => decide (0 < rawVal r))
  if d.isEmpty then none
  else
    let x_cap := race_x_cap (d.map rawVal) y_col
    some (x_cap, (raceYears d).map (fun y =>
      let t := top_for_year d x_cap y topN
      { year := y, order := t.1, vals_plot := t.2.1, vals_raw := t.2.2 }))

/-! ## Properties of the embedded pipeline

Rational arithmetic in Batteries is sealed behind `@[irreducible]`
definitions; they are unsealed here so that concrete runs of the
embedded pipeline can be checked by `decide`. -/

unseal Rat.mul Rat.add Rat.sub Rat.inv

/-- Claim C2, counterexample: with zero disaster types selected for the
globe view, the run renders the advisory for that view and then stops
(`st.stop()`), so the later views — here insight-1 and the Korea
section — are not rendered, contradicting "every other view of the
dashboard still renders". -/
theorem c2_counterexample :
    runDashboard [] ["Flood"] ["Flood"] ["Flood"] = [ViewOut.advisory "globe"] ∧
    ViewOut.chart "insight1" ∉ runDashboard [] ["Flood"] ["Flood"] ["Flood"] ∧
    ViewOut.chart "korea" ∉ runDashboard [] ["Flood"] ["Flood"] ["Flood"] := by
  decide

/-- Claim C2, amended: an empty selection renders an advisory message
and skips that view's chart, but the script then halts, so the views
before the empty one render and no later view does; when every selection
is nonempty all views render. -/
theorem c2_amended (g i a d : List String) :
    (g = [] → runDashboard g i a d = [.advisory "globe"]) ∧
    (g ≠ [] → i = [] → runDashboard g i a d =
      [.chart "globe", .advisory "insight1"]) ∧
    (g ≠ [] → i ≠ [] → a = [] → runDashboard g i a d =
      [.chart "globe", .chart "insight1", .advisory "area"]) ∧
    (g ≠ [] → i ≠ [] → a ≠ [] → d = [] → runDashboard g i a d =
      [.chart "globe", .chart "insight1", .chart "area", .advisory "deaths"]) ∧
    (g ≠ [] → i ≠ [] → a ≠ [] → d ≠ [] → runDashboard g i a d =
      [.chart "globe", .chart "insight1", .chart "area", .chart "deaths",
       .chart "story", .chart "korea"]) := by
  refine ⟨?_, ?_, ?_, ?_, ?_⟩ <;> intros <;>
    simp_all [runDashboard, List.isEmpty_iff]

/-- Claim C2, witness for the amended statement at a concrete run. -/
theorem c2_amended_witness :
    runDashboard ["Flood"] [] ["Flood"] ["Flood"] =
      [ViewOut.chart "globe", ViewOut.advisory "insight1"] :=
  (c2_amended ["Flood"] [] ["Flood"] ["Flood"]).2.1 (by decide) rfl

/-- Claim C1, counterexample: two categories tied at value 5, presented
to the builder with "Storm" before "Flood".  `top_for_year` sorts only
by the value column, so the tie comes out in input order
["Storm", "Flood"], which is not ascending lexicographic order of the
labels ("Flood" < "Storm"). -/
theorem c1_counterexample :
    (top_for_year [⟨1998, "Storm", some 5⟩, ⟨1998, "Flood", some 5⟩]
      10 1998 5).1 = ["Storm", "Flood"] ∧
    (top_for_year [⟨1998, "Storm", some 5⟩, ⟨1998, "Flood", some 5⟩]
      10 1998 5).2.2 = [5, 5] ∧
    ¬ ("Storm" ≤ "Flood") := by
  refine ⟨by decide, by decide, ?_⟩
  rw [String.le_iff_toList_le]
  decide

/-- Claim C1, amended: for every year the top-N raw values are ordered
by value descending (non-increasing); no lexicographic tie-break is
applied, so equal-valued categories keep the library sort's order on
ties (the input order, in this model) rather than necessarily ascending
label order. -/
theorem c1_amended (d : List YRow) (x_cap : ℚ) (y : ℤ) (topN : ℕ) :
    ((top_for_year d x_cap y topN).2.2).Pairwise (fun v₁ v₂ => v₂ ≤ v₁) := by
  have hsorted : ((d.filter (fun r => decide (r.year = y))).insertionSort
      valGE).Pairwise valGE :=
    List.sorted_insertionSort valGE _
  have htake := hsorted.sublist (List.take_sublist topN _)
  exact List.Pairwise.map rawVal (fun a b h => h) htake

/-- Claim C3, counterexample: the combination (1998, "Storm") is absent
from the aggregated input, yet — because year 1998 and category "Storm"
each occur in some other row — the zero-filled pivot produces a trail
point with value 0 rather than no point. -/
theorem c3_counterexample :
    trailPoint [⟨1998, "Flood", some 5⟩, ⟨1999, "Storm", some 3⟩]
      1998 "Storm" = some 0 ∧
    ([⟨1998, "Flood", some 5⟩, (⟨1999, "Storm", some 3⟩ : YRow)].filter
      (fun r => decide (r.year = 1998) && decide (r.dtype = "Storm"))) = [] := by
  decide

/-- Claim C3, amended: a missing `(year, category)` combination yields
no trail point only when the year is absent from the filtered table's
year index or the category is absent from its columns; when both occur
separately, the pivot's `fillna(0)` yields a trail point of value 0. -/
theorem c3_amended (d : List YRow) (y : ℤ) (t : String) :
    (trailPoint d y t = none ↔
      pivotHasYear d y = false ∨ pivotHasType d t = false) ∧
    (pivotHasYear d y = true → pivotHasType d t = true →
      trailPoint d y t = some (pivotCell d y t)) ∧
    (pivotHasYear d y = true → pivotHasType d t = true →
      d.filter (fun r => decide (r.year = y) && decide (r.dtype = t)) = [] →
      trailPoint d y t = some 0) := by
  refine ⟨?_, ?_, ?_⟩
  · unfold trailPoint
    cases hy : pivotHasYear d y <;> cases ht : pivotHasType d t <;> simp
  · intro hy ht
    unfold trailPoint
    simp [hy, ht]
  · intro hy ht hmiss
    unfold trailPoint
    simp only [hy, ht, Bool.and_self, if_true]
    unfold pivotCell
    rw [hmiss]
    simp

/-- Claim C3, witness for the amended statement: both the year and the
category occur separately, the combination is absent, and the emitted
trail point is `some 0`. -/
theorem c3_amended_witness :
    trailPoint [⟨1997, "Flood", some 2⟩, ⟨1998, "Storm", some 4⟩]
      1997 "Storm" = some 0 :=
  (c3_amended [⟨1997, "Flood", some 2⟩, ⟨1998, "Storm", some 4⟩]
    1997 "Storm").2.2 (by decide) (by decide) (by decide)

/-- Claim C4, counterexample: a series whose 98th percentile is 1/2 —
strictly positive — still has its display cap replaced by 1, because the
code takes `max(x_cap, 1.0)` rather than substituting 1 only when the
percentile is ≤ 0. -/
theorem c4_counterexample :
    quantileLinear [1 / 2] (raceQuantile "Deaths") = 1 / 2 ∧
    (0 : ℚ) < 1 / 2 ∧
    race_x_cap [1 / 2] "Deaths" = 1 ∧
    race_x_cap [1 / 2] "Deaths" ≠
      quantileLinear [1 / 2] (raceQuantile "Deaths") := by
  refine ⟨by decide, by decide, by decide, by decide⟩

/-- Claim C4, amended: the display cap is the chosen percentile (98th
for deaths, 95th otherwise) clamped from below by 1: it is replaced by 1
exactly when the computed percentile is ≤ 1 (in particular whenever it
is ≤ 0), a percentile ≥ 1 is used unchanged, and the cap is always
positive. -/
theorem c4_amended (vals : List ℚ) (y_col : String) :
    (quantileLinear vals (raceQuantile y_col) ≤ 1 →
      race_x_cap vals y_col = 1) ∧
    (1 ≤ quantileLinear vals (raceQuantile y_col) →
      race_x_cap vals y_col = quantileLinear vals (raceQuantile y_col)) ∧
    (y_col = "Deaths" → raceQuantile y_col = 98 / 100) ∧
    (y_col ≠ "Deaths" → raceQuantile y_col = 95 / 100) ∧
    0 < race_x_cap vals y_col := by
  refine ⟨fun h => max_eq_right h, fun h => max_eq_left h,
    fun h => by simp [raceQuantile, h], fun h => by simp [raceQuantile, h],
    lt_of_lt_of_le one_pos (le_max_right _ _)⟩

/-- Claim C4, witness for the amended statement: a percentile of 2 is
kept unchanged as the cap. -/
theorem c4_amended_witness :
    race_x_cap [(2 : ℚ)] "Deaths" =
      quantileLinear [(2 : ℚ)] (raceQuantile "Deaths") :=
  (c4_amended [(2 : ℚ)] "Deaths").2.1 (by decide)

/-- Claim C6: for every death count and every positive `unitsPerIcon`,
the number of active icons is the ceiling of the division — equal to
`(v + u - 1) / u` in integer arithmetic — so a zero count yields zero
icons, an exact multiple yields `v / u` icons, and any nonzero remainder
yields one additional icon. -/
theorem c6_active_icons_ceil (v u : ℕ) (hu : 0 < u) :
    active_icons v u = (((v + u - 1) / u : ℕ) : ℤ) ∧
    (v = 0 → active_icons v u = 0) ∧
    (v % u = 0 → active_icons v u = ((v / u : ℕ) : ℤ)) ∧
    (v % u ≠ 0 → active_icons v u = ((v / u : ℕ) : ℤ) + 1) := by
  have huQ : (0 : ℚ) < (u : ℚ) := by exact_mod_cast hu
  have hmain : active_icons v u = (((v + u - 1) / u : ℕ) : ℤ) := by
    unfold active_icons
    rw [Int.ceil_eq_iff]
    set n : ℕ := (v + u - 1) / u with hn
    have hd := Nat.div_add_mod (v + u - 1) u
    have hmod : (v + u - 1) % u < u := Nat.mod_lt _ hu
    obtain ⟨m, hm⟩ : ∃ m, u * n = m := ⟨_, rfl⟩
    rw [hm] at hd
    have hf1 : v ≤ m := by omega
    have hf2 : m < v + u := by omega
    have hf1Q : (v : ℚ) ≤ (n : ℚ) * (u : ℚ) := by
      have hc : ((u * n : ℕ) : ℚ) = (n : ℚ) * (u : ℚ) := by push_cast; ring
      rw [← hc, hm]; exact_mod_cast hf1
    have hf2Q : (n : ℚ) * (u : ℚ) < (v : ℚ) + (u : ℚ) := by
      have hc : ((u * n : ℕ) : ℚ) = (n : ℚ) * (u : ℚ) := by push_cast; ring
      rw [← hc, hm]; exact_mod_cast hf2
    constructor
    · rw [lt_div_iff₀ huQ]
      push_cast
      linarith
    · rw [div_le_iff₀ huQ]
      push_cast
      linarith
  refine ⟨hmain, ?_, ?_, ?_⟩
  · intro hv
    subst hv
    simp [active_icons]
  · intro hz
    have hd := Nat.div_add_mod v u
    set k : ℕ := v / u with hk
    have hv : u * k = v := by omega
    have heq : (v + u - 1) / u = k := by
      have h1 : v + u - 1 = u * k + (u - 1) := by omega
      rw [h1, Nat.mul_add_div hu, Nat.div_eq_of_lt (by omega)]
      omega
    rw [hmain, heq]
  · intro hz
    have hd := Nat.div_add_mod v u
    have hlt : v % u < u := Nat.mod_lt _ hu
    set k : ℕ := v / u with hk
    set r : ℕ := v % u with hr
    have heq : (v + u - 1) / u = k + 1 := by
      have h1 : v + u - 1 = u * k + (r + u - 1) := by omega
      have h2 : (r + u - 1) / u = 1 := by
        apply Nat.div_eq_of_lt_le <;> omega
      rw [h1, Nat.mul_add_div hu, h2]
    rw [hmain, heq]
    push_cast
    ring

/-- Claim C6, witness at the spec's example scenario
(`unitsPerIcon = 10`; counts 95, 100, 101, 0). -/
theorem c6_active_icons_ceil_witness :
    active_icons 95 10 = (((95 + 10 - 1) / 10 : ℕ) : ℤ) ∧
    active_icons 100 10 = ((100 / 10 : ℕ) : ℤ) ∧
    active_icons 101 10 = ((101 / 10 : ℕ) : ℤ) + 1 ∧
    active_icons 0 10 = 0 :=
  ⟨(c6_active_icons_ceil 95 10 (by decide)).1,
   (c6_active_icons_ceil 100 10 (by decide)).2.2.1 (by decide),
   (c6_active_icons_ceil 101 10 (by decide)).2.2.2 (by decide),
   (c6_active_icons_ceil 0 10 (by decide)).2.1 rfl⟩

/-- Claim C10: the builder drops every row whose metric value is missing
(NaN, zero-filled) or not strictly positive before ranking, so every raw
value in every emitted frame is strictly positive; and when no row has a
positive value it returns `None` instead of a figure. -/
theorem c10_positive_frames (rows : List YRow) (y_col : String)
    (year_end : ℤ) (topN : ℕ) :
    (∀ x_cap frames,
      make_bar_race_with_trail rows y_col year_end topN = some (x_cap, frames) →
      ∀ fr ∈ frames, ∀ v ∈ fr.vals_raw, 0 < v) ∧
    ((∀ r ∈ rows, ¬ (0 < rawVal r)) →
      make_bar_race_with_trail rows y_col year_end topN = none) := by
  constructor
  · intro x_cap frames h fr hfr v hv
    rw [make_bar_race_with_trail] at h
    set d := (rows.filter (fun r => decide (r.year ≤ year_end))).filter
      (fun r => decide (0 < rawVal r)) with hd
    cases hde : d.isEmpty with
    | true => rw [if_pos hde] at h; exact absurd h (by simp)
    | false =>
      rw [if_neg (by simp [hde])] at h
      simp only [Option.some.injEq, Prod.mk.injEq] at h
      obtain ⟨-, hframes⟩ := h
      rw [← hframes] at hfr
      obtain ⟨y, -, hfr_eq⟩ := List.mem_map.mp hfr
      rw [← hfr_eq] at hv
      simp only [top_for_year] at hv
      obtain ⟨r, hr, hrv⟩ := List.mem_map.mp hv
      have hr₁ : r ∈ (d.filter (fun r => decide (r.year = y))).insertionSort valGE :=
        List.mem_of_mem_take (by simpa [top_rows] using hr)
      have hr₂ : r ∈ d.filter (fun r => decide (r.year = y)) :=
        (List.mem_insertionSort valGE).mp hr₁
      have hr₃ : r ∈ d := List.mem_of_mem_filter hr₂
      rw [hd] at hr₃
      have hpos := (List.mem_filter.mp hr₃).2
      rw [← hrv]
      exact of_decide_eq_true hpos
  · intro hnone
    have hfilter : (rows.filter (fun r => decide (r.year ≤ year_end))).filter
        (fun r => decide (0 < rawVal r)) = [] := by
      rw [List.filter_eq_nil_iff]
      intro a ha
      have : a ∈ rows := List.mem_of_mem_filter ha
      simpa using hnone a this
    rw [make_bar_race_with_trail, hfilter]
    simp

/-- Claim C10, witness: a concrete input whose NaN row and zero row are
dropped, leaving one frame with the single positive value 5. -/
theorem c10_positive_frames_witness : (0 : ℚ) < 5 :=
  (c10_positive_frames
      [⟨1998, "Flood", some 5⟩, ⟨1998, "Storm", none⟩, ⟨1999, "Flood", some 0⟩]
      "Deaths" 1999 5).1 5
    [{ year := 1998, order := ["Flood"], vals_plot := [5], vals_raw := [5] }]
    (by decide)
    { year := 1998, order := ["Flood"], vals_plot := [5], vals_raw := [5] }
    (by decide) 5 (by decide)

/-! ### Group-by lemmas -/

/-- The sorted key list is sorted with respect to `keyLE`. -/
theorem sortedKeys_sorted (ks : List AggKey) :
    (sortedKeys ks).Sorted keyLE :=
  List.sorted_insertionSort keyLE ks.dedup

/-- The sorted key list has no duplicate keys. -/
theorem sortedKeys_nodup (ks : List AggKey) : (sortedKeys ks).Nodup :=
  ((List.perm_insertionSort keyLE ks.dedup).nodup_iff).mpr (List.nodup_dedup ks)

/-- Membership in the sorted key list is membership in the key list. -/
theorem mem_sortedKeys {k : AggKey} {ks : List AggKey} :
    k ∈ sortedKeys ks ↔ k ∈ ks := by
  unfold sortedKeys
  rw [List.mem_insertionSort, List.mem_dedup]

/-- Extracting the distinct sorted keys commutes with filtering by a key
predicate. -/
theorem sortedKeys_filter (ks : List AggKey) (q : AggKey → Bool) :
    sortedKeys (ks.filter q) = (sortedKeys ks).filter q := by
  refine List.eq_of_perm_of_sorted ?_ (sortedKeys_sorted _)
    ((sortedKeys_sorted ks).filter q)
  rw [List.perm_ext_iff_of_nodup (sortedKeys_nodup _)
    ((sortedKeys_nodup ks).filter q)]
  intro a
  rw [mem_sortedKeys, List.mem_filter, List.mem_filter, mem_sortedKeys]

/-- Filtering pairs by a key predicate the key satisfies does not change
a group's sum. -/
theorem sumOver_filter_key (pairs : List (AggKey × ℚ)) (q : AggKey → Bool)
    (k : AggKey) (hq : q k = true) :
    sumOver (pairs.filter (fun pr => q pr.1)) k = sumOver pairs k := by
  unfold sumOver
  rw [List.filter_filter]
  have heq : List.filter (fun a => decide (a.1 = k) && q a.1) pairs =
      List.filter (fun pr => decide (pr.1 = k)) pairs := by
    apply List.filter_congr
    intro a _
    by_cases hak : a.1 = k
    · simp [hak, hq]
    · simp [hak]
  rw [heq]

/-- Keeping only the aggregated entries whose year is in range equals
aggregating only the pairs whose year is in range. -/
theorem groupSum_filter_year (pairs : List (AggKey × ℚ)) (lo hi : ℤ) :
    (groupSum pairs).filter
      (fun kv => decide (lo ≤ kv.1.1) && decide (kv.1.1 ≤ hi)) =
    groupSum (pairs.filter
      (fun pr => decide (lo ≤ pr.1.1) && decide (pr.1.1 ≤ hi))) := by
  unfold groupSum
  rw [List.filter_map]
  have hkeys : (pairs.filter
        (fun pr => decide (lo ≤ pr.1.1) && decide (pr.1.1 ≤ hi))).map Prod.fst =
      (pairs.map Prod.fst).filter
        (fun k => decide (lo ≤ k.1) && decide (k.1 ≤ hi)) := by
    rw [List.filter_map]
    rfl
  rw [hkeys, sortedKeys_filter]
  have hcomp : ((fun kv : AggKey × ℚ => decide (lo ≤ kv.1.1) && decide (kv.1.1 ≤ hi)) ∘
      (fun k => (k, sumOver pairs k))) =
      (fun k : AggKey => decide (lo ≤ k.1) && decide (k.1 ≤ hi)) := rfl
  rw [hcomp]
  apply List.map_congr_left
  intro k hk
  have hq : (fun k : AggKey => decide (lo ≤ k.1) && decide (k.1 ≤ hi)) k = true :=
    (List.mem_filter.mp hk).2
  have hsum := sumOver_filter_key pairs
    (fun kk => decide (lo ≤ kk.1) && decide (kk.1 ≤ hi)) k hq
  rw [Prod.mk.injEq]
  exact ⟨rfl, hsum.symm⟩

/-- Claim C5: the aggregation stage retains a row iff its year lies in
the inclusive selected range, its disaster type is in the selected set,
and (when a region filter is given) its region equals the selected
region; retained rows are grouped by `(year, category)` and reduced by
count or sum per the metric, with no additional rows dropped — the
pipeline as coded (region filter, type filter, group-reduce, then year
filter on the aggregate) equals the spec's single-pass retention. -/
theorem c5_aggregation (rows : List Row) (selectedRegion : Option String)
    (selectedTypes : List String) (lo hi : ℤ) (m : Metric) :
    codeAggregate rows selectedRegion selectedTypes lo hi m =
      specAggregate rows selectedRegion selectedTypes lo hi m := by
  unfold codeAggregate specAggregate
  cases selectedRegion with
  | none =>
    rw [groupSum_filter_year]
    congr 1
    rw [List.filter_map]
    have hrows : (rows.filter (fun r => decide (r.dtype ∈ selectedTypes))).filter
        ((fun pr : AggKey × ℚ => decide (lo ≤ pr.1.1) && decide (pr.1.1 ≤ hi)) ∘
          (fun r => (rowKey r, metricValue m r))) =
        rows.filter (retain none selectedTypes lo hi) := by
      rw [List.filter_filter]
      apply List.filter_congr
      intro a _
      simp [retain, regionOk, rowKey, Function.comp, Bool.and_comm, Bool.and_assoc,
        Bool.and_left_comm]
    rw [hrows]
  | some reg =>
    rw [groupSum_filter_year]
    congr 1
    rw [List.filter_map]
    have hrows : ((rows.filter (fun r => decide (r.region = reg))).filter
          (fun r => decide (r.dtype ∈ selectedTypes))).filter
        ((fun pr : AggKey × ℚ => decide (lo ≤ pr.1.1) && decide (pr.1.1 ≤ hi)) ∘
          (fun r => (rowKey r, metricValue m r))) =
        rows.filter (retain (some reg) selectedTypes lo hi) := by
      rw [List.filter_filter, List.filter_filter]
      apply List.filter_congr
      intro a _
      simp [retain, regionOk, rowKey, Function.comp, Bool.and_comm, Bool.and_assoc,
        Bool.and_left_comm]
    rw [hrows]

/-- Claim C7: a Korea table lacking both the canonical name and the
accepted alias of a required column makes the loader fail fast with an
error naming the missing field and listing the actual columns found
(fields are checked in source order: year, deaths, type), and it never
proceeds to a normalized output. -/
theorem c7_missing_column_fails (t : KTable) :
    (¬ hasYearCol t → normalize_korea_df t = .error (korYearErr t.cols)) ∧
    (hasYearCol t → ¬ hasDeathsCol t →
      normalize_korea_df t = .error (korDeathsErr t.cols)) ∧
    (hasYearCol t → hasDeathsCol t → ¬ hasTypeCol t →
      normalize_korea_df t = .error (korTypeErr t.cols)) ∧
    ((¬ hasYearCol t ∨ ¬ hasDeathsCol t ∨ ¬ hasTypeCol t) →
      ∀ out, normalize_korea_df t ≠ .ok out) := by
  have e1 : ¬ hasYearCol t →
      normalize_korea_df t = .error (korYearErr t.cols) := fun hy => by
    unfold normalize_korea_df
    rw [if_pos hy]
  have e2 : hasYearCol t → ¬ hasDeathsCol t →
      normalize_korea_df t = .error (korDeathsErr t.cols) := fun hy hd => by
    unfold normalize_korea_df
    rw [if_neg (not_not_intro hy), if_pos hd]
  have e3 : hasYearCol t → hasDeathsCol t → ¬ hasTypeCol t →
      normalize_korea_df t = .error (korTypeErr t.cols) := fun hy hd ht => by
    unfold normalize_korea_df
    rw [if_neg (not_not_intro hy), if_neg (not_not_intro hd), if_pos ht]
  refine ⟨e1, e2, e3, ?_⟩
  intro h out hok
  rcases h with hh | hh | hh
  · rw [e1 hh] at hok
    exact Except.noConfusion hok
  · by_cases hy : hasYearCol t
    · rw [e2 hy hh] at hok
      exact Except.noConfusion hok
    · rw [e1 hy] at hok
      exact Except.noConfusion hok
  · by_cases hy : hasYearCol t
    · by_cases hd : hasDeathsCol t
      · rw [e3 hy hd hh] at hok
        exact Except.noConfusion hok
      · rw [e2 hy hd] at hok
        exact Except.noConfusion hok
    · rw [e1 hy] at hok
      exact Except.noConfusion hok

/-- Claim C7, witness: a table with a year column and a type column but
no deaths column under either alias errors with the deaths message. -/
theorem c7_missing_column_fails_witness :
    normalize_korea_df { cols := ["Year", "Disaster Type"], rows := [] } =
      .error (korDeathsErr ["Year", "Disaster Type"]) :=
  (c7_missing_column_fails { cols := ["Year", "Disaster Type"], rows := [] }).2.1
    (by decide) (by decide)

/-! ### Idempotence of the group-by reduction -/

/-- The key column of a `groupSum` output is the sorted distinct key
list of its input. -/
theorem groupSum_map_fst (pairs : List (AggKey × ℚ)) :
    (groupSum pairs).map Prod.fst = sortedKeys (pairs.map Prod.fst) := by
  unfold groupSum
  rw [List.map_map]
  have hid : (Prod.fst ∘ fun k : AggKey => (k, sumOver pairs k)) = id := rfl
  rw [hid, List.map_id]

/-- In a duplicate-free key list, filtering for one contained key leaves
exactly that key. -/
theorem nodup_filter_eq_singleton {l : List AggKey} {k : AggKey}
    (hnd : l.Nodup) (hk : k ∈ l) :
    l.filter (fun x => decide (x = k)) = [k] := by
  induction l with
  | nil => cases hk
  | cons a l ih =>
    obtain heq | hk' := List.mem_cons.mp hk
    · subst heq
      have hnotin : k ∉ l := (List.nodup_cons.mp hnd).1
      rw [List.filter_cons_of_pos (by simp)]
      have hnil : l.filter (fun x => decide (x = k)) = [] := by
        rw [List.filter_eq_nil_iff]
        intro b hb
        simp only [decide_eq_true_eq]
        intro hba
        exact hnotin (hba ▸ hb)
      rw [hnil]
    · have hne : a ≠ k := by
        rintro rfl
        exact (List.nodup_cons.mp hnd).1 hk'
      rw [List.filter_cons_of_neg (by simp [hne])]
      exact ih (List.nodup_cons.mp hnd).2 hk'

/-- Summing a key's group inside an already-grouped list returns the
original group sum. -/
theorem sumOver_groupSum (pairs : List (AggKey × ℚ)) (k : AggKey)
    (hk : k ∈ sortedKeys (pairs.map Prod.fst)) :
    sumOver (groupSum pairs) k = sumOver pairs k := by
  unfold sumOver groupSum
  rw [List.filter_map]
  have hcomp : ((fun p : AggKey × ℚ => decide (p.1 = k)) ∘
      (fun k' => (k', sumOver pairs k'))) = (fun k' : AggKey => decide (k' = k)) := rfl
  rw [hcomp, nodup_filter_eq_singleton (sortedKeys_nodup _) hk]
  simp [sumOver]

/-- Grouping an already-grouped list changes nothing. -/
theorem groupSum_idem (pairs : List (AggKey × ℚ)) :
    groupSum (groupSum pairs) = groupSum pairs := by
  conv_lhs => rw [groupSum]
  rw [groupSum_map_fst]
  have hsk : sortedKeys (sortedKeys (pairs.map Prod.fst)) =
      sortedKeys (pairs.map Prod.fst) := by
    show (sortedKeys (pairs.map Prod.fst)).dedup.insertionSort keyLE =
      sortedKeys (pairs.map Prod.fst)
    rw [(sortedKeys_nodup (pairs.map Prod.fst)).dedup]
    exact (sortedKeys_sorted (pairs.map Prod.fst)).insertionSort_eq
  rw [hsk]
  conv_rhs => rw [groupSum]
  apply List.map_congr_left
  intro k hk
  rw [sumOver_groupSum pairs k hk]

/-- Claim C8: Korea-data normalization is idempotent — re-normalizing a
normalized output (re-packaged as a raw table) returns it unchanged —
and, for a table carrying the required columns under either naming
convention, renaming the legacy column names to the canonical ones is
all the column resolution does: the normalized output is the same as for
the identical table under canonical names, with values untouched and
duplicate `(year, type)` rows summed by the grouping stage. -/
theorem c8_normalize_idempotent (t : KTable) (out : List (AggKey × ℚ)) :
    (normalize_korea_df t = .ok out →
      normalize_korea_df (normalizedAsRaw out) = .ok out) ∧
    (hasYearCol t → hasDeathsCol t → hasTypeCol t →
      normalize_korea_df t = normalize_korea_df
        { cols := ["Year", "Disaster Type", "Total_Deaths"], rows := t.rows }) := by
  constructor
  · intro h
    have hout : ∃ pairs, out = groupSum pairs := by
      unfold normalize_korea_df at h
      split_ifs at h with h1 h2 h3 h4
      all_goals
        first
          | exact Except.noConfusion h
          | (injection h with h'; exact ⟨_, h'.symm⟩)
    obtain ⟨pairs0, rfl⟩ := hout
    unfold normalize_korea_df
    rw [if_neg (not_not_intro (by simp [hasYearCol, normalizedAsRaw]))]
    rw [if_neg (not_not_intro (by simp [hasDeathsCol, normalizedAsRaw]))]
    rw [if_neg (not_not_intro (by simp [hasTypeCol, normalizedAsRaw]))]
    have hcast : ((normalizedAsRaw (groupSum pairs0)).rows.any fun r =>
        match r.year with
        | some q => decide (q.den ≠ 1)
        | none => false) = false := by
      rw [List.any_eq_false]
      intro r hr
      simp only [normalizedAsRaw, List.mem_map] at hr
      obtain ⟨kv, -, rfl⟩ := hr
      simp [Rat.den_intCast]
    rw [if_neg (show ¬ _ = true from by rw [hcast]; exact Bool.false_ne_true)]
    have hbody : (normalizedAsRaw (groupSum pairs0)).rows.filterMap
        (fun r => r.year.map (fun q => ((⌊q⌋, r.dtype), r.deaths.getD 0))) =
        groupSum pairs0 := by
      show ((groupSum pairs0).map _).filterMap _ = groupSum pairs0
      rw [List.filterMap_map]
      have hfn : ((fun r : KRow =>
            r.year.map (fun q => ((⌊q⌋, r.dtype), r.deaths.getD 0))) ∘
          (fun kv : AggKey × ℚ =>
            ({ year := some (kv.1.1 : ℚ), dtype := kv.1.2,
               deaths := some kv.2 } : KRow))) =
          (some : AggKey × ℚ → Option (AggKey × ℚ)) := by
        funext kv
        simp [Function.comp, Int.floor_intCast]
      rw [hfn, List.filterMap_some]
    rw [hbody, groupSum_idem]
  · intro hy hd ht
    unfold normalize_korea_df
    rw [if_neg (not_not_intro hy), if_neg (not_not_intro hd),
      if_neg (not_not_intro ht)]
    rw [if_neg (not_not_intro (show hasYearCol
      { cols := ["Year", "Disaster Type", "Total_Deaths"], rows := t.rows } by
        simp [hasYearCol]))]
    rw [if_neg (not_not_intro (show hasDeathsCol
      { cols := ["Year", "Disaster Type", "Total_Deaths"], rows := t.rows } by
        simp [hasDeathsCol]))]
    rw [if_neg (not_not_intro (show hasTypeCol
      { cols := ["Year", "Disaster Type", "Total_Deaths"], rows := t.rows } by
        simp [hasTypeCol]))]

/-- Claim C8, witness: a legacy-named table with duplicate
`(1998, Flood)` rows and a NaN deaths cell normalizes to a summed,
sorted table, and normalizing that output again returns it verbatim. -/
theorem c8_normalize_idempotent_witness :
    normalize_korea_df
      { cols := ["Start Year", "Disaster Type", "Total Deaths"],
        rows := [{ year := some 1998, dtype := "Flood", deaths := some 50 },
                 { year := some 1998, dtype := "Flood", deaths := some 7 },
                 { year := some 1997, dtype := "Storm", deaths := none }] } =
      .ok [((1997, "Storm"), 0), ((1998, "Flood"), 57)] ∧
    normalize_korea_df (normalizedAsRaw
      [((1997, "Storm"), 0), ((1998, "Flood"), 57)]) =
      .ok [((1997, "Storm"), 0), ((1998, "Flood"), 57)] :=
  ⟨by decide,
   (c8_normalize_idempotent
      { cols := ["Start Year", "Disaster Type", "Total Deaths"],
        rows := [{ year := some 1998, dtype := "Flood", deaths := some 50 },
                 { year := some 1998, dtype := "Flood", deaths := some 7 },
                 { year := some 1997, dtype := "Storm", deaths := none }] }
      [((1997, "Storm"), 0), ((1998, "Flood"), 57)]).1 (by decide)⟩

/-! ### Color-assignment lemmas -/

/-- A color returned by the palette scan is not among the used colors. -/
theorem pickColor_not_used (palette used : List String) :
    ∀ (idx fuel : ℕ) (c : String) (i : ℕ),
      pickColor palette used idx fuel = some (c, i) → c ∉ used := by
  intro idx fuel
  induction fuel generalizing idx with
  | zero => intro c i h; exact Option.noConfusion h
  | succ fuel ih =>
    intro c i h
    rw [pickColor] at h
    by_cases hc : palette.getD (idx % palette.length) "" ∈ used
    · rw [if_pos hc] at h
      exact ih (idx + 1) c i h
    · rw [if_neg hc] at h
      obtain ⟨rfl, -⟩ := Prod.mk.injEq .. ▸ Option.some.injEq .. ▸ h
      exact hc

/-- Distinct manually curated types have distinct curated colors. -/
theorem manualColor_inj :
    ∀ t₁ ∈ manualKeys, ∀ t₂ ∈ manualKeys,
      t₁ ≠ t₂ → manualColor t₁ ≠ manualColor t₂ := by decide

/-- A curated type's color is among the initially-used color values. -/
theorem manualColor_mem_values :
    ∀ t ∈ manualKeys, manualColor t ∈ manualValues := by decide

/-- Invariant of the assignment loop: when it completes, the map covers
exactly the processed types in order, curated types carry their curated
color, and no color is assigned twice. -/
theorem assignColors_spec (palette : List String) (ts : List String) :
    ∀ (cmap : List (String × String)) (used : List String) (idx : ℕ)
      (m : List (String × String)),
      assignColors palette ts cmap used idx = some m →
      ts.Nodup →
      (∀ c ∈ cmap.map Prod.snd, c ∈ used) →
      (∀ c ∈ manualValues, c ∈ used) →
      (∀ p ∈ cmap, p.1 ∈ manualKeys → p.2 = manualColor p.1) →
      (∀ t ∈ ts, t ∈ manualKeys → manualColor t ∉ cmap.map Prod.snd) →
      (cmap.map Prod.snd).Nodup →
      m.map Prod.fst = cmap.map Prod.fst ++ ts ∧
      (∀ p ∈ m, p.1 ∈ manualKeys → p.2 = manualColor p.1) ∧
      (m.map Prod.snd).Nodup := by
  induction ts with
  | nil =>
    intro cmap used idx m h _ _ _ hman _ hnodup
    rw [assignColors] at h
    obtain rfl := Option.some.injEq .. ▸ h
    exact ⟨by simp, hman, hnodup⟩
  | cons t ts ih =>
    intro cmap used idx m h hnd hsub hmanused hman hfresh hnodup
    rw [assignColors] at h
    have hndtail := (List.nodup_cons.mp hnd).2
    have htnotts := (List.nodup_cons.mp hnd).1
    by_cases hm : t ∈ manualKeys
    · rw [if_pos hm] at h
      have hmc_used : manualColor t ∈ used :=
        hmanused _ (manualColor_mem_values t hm)
      have hmc_fresh : manualColor t ∉ cmap.map Prod.snd :=
        hfresh t (List.mem_cons_self t ts) hm
      obtain ⟨hA, hB, hC⟩ := ih (cmap ++ [(t, manualColor t)]) used idx m h
        hndtail
        (by
          intro c hc
          rw [List.map_append, List.mem_append] at hc
          rcases hc with hc | hc
          · exact hsub c hc
          · simp at hc
            exact hc ▸ hmc_used)
        hmanused
        (by
          intro p hp hpm
          rw [List.mem_append] at hp
          rcases hp with hp | hp
          · exact hman p hp hpm
          · simp at hp
            subst hp
            rfl)
        (by
          intro t' ht' ht'm
          rw [List.map_append, List.mem_append]
          push_neg
          refine ⟨hfresh t' (List.mem_cons_of_mem t ht') ht'm, ?_⟩
          simp only [List.map_cons, List.map_nil, List.mem_singleton]
          exact manualColor_inj t' ht'm t hm (fun he => htnotts (he ▸ ht'))
        )
        (by
          rw [List.map_append]
          refine List.Nodup.append hnodup (by simp) ?_
          simp only [List.map_cons, List.map_nil, List.disjoint_singleton]
          exact hmc_fresh)
      refine ⟨?_, hB, hC⟩
      rw [hA, List.map_append]
      simp
    · rw [if_neg hm] at h
      cases hp : pickColor palette used idx palette.length with
      | none => rw [hp] at h; exact Option.noConfusion h
      | some ci =>
        obtain ⟨c, i⟩ := ci
        rw [hp] at h
        have hcnot : c ∉ used := pickColor_not_used palette used idx _ c i hp
        have hcnotmap : c ∉ cmap.map Prod.snd := fun hmem => hcnot (hsub c hmem)
        obtain ⟨hA, hB, hC⟩ := ih (cmap ++ [(t, c)]) (used ++ [c]) (i + 1) m h
          hndtail
          (by
            intro c' hc'
            rw [List.map_append, List.mem_append] at hc'
            rw [List.mem_append]
            rcases hc' with hc' | hc'
            · exact Or.inl (hsub c' hc')
            · simp at hc'
              exact Or.inr (by simp [hc'])
          )
          (fun c' hc' => List.mem_append_left _ (hmanused c' hc'))
          (by
            intro p hp' hpm
            rw [List.mem_append] at hp'
            rcases hp' with hp' | hp'
            · exact hman p hp' hpm
            · simp at hp'
              subst hp'
              exact absurd hpm hm)
          (by
            intro t' ht' ht'm
            rw [List.map_append, List.mem_append]
            push_neg
            refine ⟨hfresh t' (List.mem_cons_of_mem t ht') ht'm, ?_⟩
            simp only [List.map_cons, List.map_nil, List.mem_singleton]
            intro he
            exact hcnot (he ▸ hmanused _ (manualColor_mem_values t' ht'm))
          )
          (by
            rw [List.map_append]
            refine List.Nodup.append hnodup (by simp) ?_
            simp only [List.map_cons, List.map_nil, List.disjoint_singleton]
            exact hcnotmap)
        refine ⟨?_, hB, hC⟩
        rw [hA, List.map_append]
        simp

/-- Association-list lookup returns the common value of all entries
matching a key that is present. -/
theorem lookup_eq_of_mem_keys (m : List (String × String)) (t v : String)
    (hk : t ∈ m.map Prod.fst)
    (hv : ∀ p ∈ m, p.1 = t → p.2 = v) :
    m.lookup t = some v := by
  induction m with
  | nil => simp at hk
  | cons a m ih =>
    obtain ⟨k, b⟩ := a
    by_cases hkt : t = k
    · subst hkt
      have hb : b = v := hv (t, b) (List.mem_cons_self _ _) rfl
      simp [List.lookup, hb]
    · have hk' : t ∈ m.map Prod.fst := by
        rcases List.mem_map.mp hk with ⟨p, hp, hpt⟩
        rcases List.mem_cons.mp hp with rfl | hp'
        · exact absurd hpt.symm hkt
        · exact List.mem_map.mpr ⟨p, hp', hpt⟩
      have hrec := ih hk' (fun p hp hpt => hv p (List.mem_cons_of_mem _ hp) hpt)
      have hbeq : (t == k) = false := beq_eq_false_iff_ne.mpr hkt
      simpa [List.lookup, hbeq] using hrec

/-- Claim C9: a successfully built session color map assigns every known
disaster type a color; curated overrides take precedence, no two types
share a color (palette colors are taken in first-seen order skipping
ones already claimed), and once stored in the session the map is
returned unchanged by later reruns whatever the palette or type list
then looks like. -/
theorem c9_color_map_stable (palette all_types : List String)
    (m : List (String × String)) (hnd : all_types.Nodup)
    (hbuild : buildColorMap palette all_types = some m) :
    m.map Prod.fst = all_types ∧
    (∀ t ∈ all_types, t ∈ manualKeys → m.lookup t = some (manualColor t)) ∧
    (m.map Prod.snd).Nodup ∧
    (∀ palette2 types2, sessionColorMap (some m) palette2 types2 = some m) := by
  obtain ⟨hA, hB, hC⟩ := assignColors_spec palette all_types [] manualValues 0 m
    hbuild hnd (by simp) (fun c hc => hc) (by simp) (by simp) (by simp)
  rw [List.map_nil, List.nil_append] at hA
  refine ⟨hA, ?_, hC, fun _ _ => rfl⟩
  intro t ht htm
  apply lookup_eq_of_mem_keys
  · rw [hA]
    exact ht
  · intro p hp hpt
    exact (hB p hp (hpt ▸ htm)).trans (by rw [hpt])

/-- Claim C9, witness on a concrete palette and type list: the built map
is collision-free and the curated type keeps its curated color. -/
theorem c9_color_map_stable_witness :
    (([("Avalanche", "c1"), ("Flood", "#4c78a8"), ("Zebra", "c2")] :
      List (String × String)).map Prod.snd).Nodup ∧
    ([("Avalanche", "c1"), ("Flood", "#4c78a8"), ("Zebra", "c2")] :
      List (String × String)).lookup "Flood" = some (manualColor "Flood") :=
  ⟨(c9_color_map_stable ["c1", "c2", "c3"] ["Avalanche", "Flood", "Zebra"]
      [("Avalanche", "c1"), ("Flood", "#4c78a8"), ("Zebra", "c2")]
      (by decide) (by decide)).2.2.1,
   (c9_color_map_stable ["c1", "c2", "c3"] ["Avalanche", "Flood", "Zebra"]
      [("Avalanche", "c1"), ("Flood", "#4c78a8"), ("Zebra", "c2")]
      (by decide) (by decide)).2.1 "Flood" (by decide) (by decide)⟩

/-- Claim C5, witness at the spec's example scenario: three KOR events,
types {Flood, Storm}, years [1998, 1999], metric sum(deaths) aggregate
to {(1998, Flood): 50, (1998, Storm): 200, (1999, Flood): 10}. -/
theorem c5_aggregation_witness :
    codeAggregate
      [{ startYear := 1998, dtype := "Flood", region := "KOR", deaths := 50,
         affected := 0 },
       { startYear := 1998, dtype := "Storm", region := "KOR", deaths := 200,
         affected := 0 },
       { startYear := 1999, dtype := "Flood", region := "KOR", deaths := 10,
         affected := 0 }]
      none ["Flood", "Storm"] 1998 1999 .sumDeaths =
    [((1998, "Flood"), 50), ((1998, "Storm"), 200), ((1999, "Flood"), 10)] :=
  (c5_aggregation
    [{ startYear := 1998, dtype := "Flood", region := "KOR", deaths := 50,
       affected := 0 },
     { startYear := 1998, dtype := "Storm", region := "KOR", deaths := 200,
       affected := 0 },
     { startYear := 1999, dtype := "Flood", region := "KOR", deaths := 10,
       affected := 0 }]
    none ["Flood", "Storm"] 1998 1999 .sumDeaths).trans (by decide)
